import Mathlib

/-!
Verification of the CashLite aggregation/reporting core and its balance
maintenance service layer.

The TypeScript sources are embedded shallowly:
* JavaScript numbers are modelled as exact rationals (`ℚ`); a JavaScript
  division whose result could be non-finite (`NaN`/`Infinity`) is modelled in
  the `Option` monad (`none` = non-finite), so totality theorems state the
  absence of non-finite results.
* A JavaScript `Date` is modelled by its local calendar components plus the
  milliseconds elapsed within the day (`JSDate`); comparison of dates is the
  lexicographic order on those components, matching timestamp order.
* `date-fns format(date, "yyyy-MM-dd")` is modelled by projecting to the
  calendar-day triple `DayKey`; comparison of two formatted date strings via
  `localeCompare` is the lexicographic order on the triples.
* Dexie tables are modelled as Lean lists; primary keys are assumed unique.
-/

namespace CashLite

/-- `'income' | 'expense'` (src/types/index.ts, Transaction.type). -/
inductive TxType where
  | income
  | expense
  deriving DecidableEq, Repr

/-- `'income' | 'expense' | 'both'` (src/types/index.ts, Category.type). -/
inductive CatType where
  | income
  | expense
  | both
  deriving DecidableEq, Repr

/-- A JavaScript `Date`: local calendar components plus milliseconds within
the day.  `ms` is intended to satisfy `0 ≤ ms < 86400000` but the bound is
not needed structurally. -/
structure JSDate where
  year : Int
  month : Int
  day : Int
  ms : Int
  deriving DecidableEq, Repr

/-- Timestamp comparison `a <= b` on JavaScript dates: lexicographic on
(year, month, day, ms). -/
def dateLe (a b : JSDate) : Bool :=
  decide (a.year < b.year) ||
    (decide (a.year = b.year) &&
      (decide (a.month < b.month) ||
        (decide (a.month = b.month) &&
          (decide (a.day < b.day) ||
            (decide (a.day = b.day) && decide (a.ms ≤ b.ms))))))

/-- The calendar-day key produced by `format(date, 'yyyy-MM-dd')`
(src/lib/aggregation.ts).  Two dates format equally iff their calendar
components agree. -/
structure DayKey where
  year : Int
  month : Int
  day : Int
  deriving DecidableEq, Repr

/-- `format(transaction.date, 'yyyy-MM-dd')`. -/
def formatDay (d : JSDate) : DayKey :=
  { year := d.year, month := d.month, day := d.day }

/-- `localeCompare`-order (`a <= b`) of two formatted `yyyy-MM-dd` strings,
which for zero-padded dates is the lexicographic order on the triples. -/
def dayKeyLe (a b : DayKey) : Bool :=
  decide (a.year < b.year) ||
    (decide (a.year = b.year) &&
      (decide (a.month < b.month) ||
        (decide (a.month = b.month) && decide (a.day ≤ b.day))))

/-- `new Date(dateKey)` for a `yyyy-MM-dd` key: midnight of that day
(src/lib/aggregation.ts, getDailySummaries). -/
def dayStart (k : DayKey) : JSDate :=
  { year := k.year, month := k.month, day := k.day, ms := 0 }

/-- Gregorian leap-year test, as used by `date-fns getDaysInMonth`. -/
def isLeapYear (y : Int) : Bool :=
  (decide (y % 4 = 0) && !(decide (y % 100 = 0))) || decide (y % 400 = 0)

/-- `getDaysInMonth(new Date(year, month - 1))` (date-fns), with `month`
1-based as in the service API. -/
def daysInMonth (y m : Int) : Int :=
  if m = 2 then (if isLeapYear y then 29 else 28)
  else if m = 4 ∨ m = 6 ∨ m = 9 ∨ m = 11 then 30
  else 31

/-- `startOfMonth(new Date(year, month - 1))`: first day, midnight. -/
def startOfMonth (y m : Int) : JSDate :=
  { year := y, month := m, day := 1, ms := 0 }

/-- `endOfMonth(new Date(year, month - 1))`: last day, 23:59:59.999. -/
def endOfMonth (y m : Int) : JSDate :=
  { year := y, month := m, day := daysInMonth y m, ms := 86399999 }

/-- src/types/index.ts, `Transaction`. -/
structure Transaction where
  id : String
  bookId : String
  type : TxType
  amount : ℚ
  description : String
  notes : Option String
  categoryId : Option String
  date : JSDate
  createdAt : JSDate
  updatedAt : JSDate
  isRecurring : Bool
  recurringId : Option String
  tags : List String
  originalTransactionId : Option String
  isReversed : Bool
  deriving DecidableEq, Repr

/-- src/types/index.ts, `Category`. -/
structure Category where
  id : String
  name : String
  type : CatType
  color : String
  icon : String
  isDefault : Bool
  isActive : Bool
  createdAt : JSDate
  updatedAt : JSDate
  deriving DecidableEq, Repr

/-- src/types/index.ts, `Book`. -/
structure Book where
  id : String
  name : String
  description : Option String
  segmentId : Option String
  currency : String
  color : String
  icon : String
  isActive : Bool
  createdAt : JSDate
  updatedAt : JSDate
  balance : ℚ
  deriving DecidableEq, Repr

/-- src/types/index.ts, `Segment`. -/
structure Segment where
  id : String
  name : String
  description : Option String
  color : String
  icon : String
  isActive : Bool
  createdAt : JSDate
  updatedAt : JSDate
  totalBalance : ℚ
  deriving DecidableEq, Repr

/-- src/types/index.ts, `CategoryAggregation`. -/
structure CategoryAggregation where
  categoryId : String
  categoryName : String
  totalAmount : ℚ
  transactionCount : Nat
  averageAmount : ℚ
  minAmount : ℚ
  maxAmount : ℚ
  type : CatType
  percentage : ℚ
  deriving DecidableEq, Repr

/-- src/types/index.ts, `DailySummary`.  The `date` field holds the
`yyyy-MM-dd` key. -/
structure DailySummary where
  date : DayKey
  totalIncome : ℚ
  totalExpense : ℚ
  netAmount : ℚ
  transactionCount : Nat
  incomeTransactions : Nat
  expenseTransactions : Nat
  topCategories : List CategoryAggregation
  deriving DecidableEq, Repr

/-- src/types/index.ts, `MonthlySummary`.  The source stores
`biggestIncomeDay`/`biggestExpenseDay` as date strings with `''` for
"no day"; the empty string is modelled as `none`. -/
structure MonthlySummary where
  year : Int
  month : Int
  totalIncome : ℚ
  totalExpense : ℚ
  netAmount : ℚ
  transactionCount : Nat
  incomeTransactions : Nat
  expenseTransactions : Nat
  avgDailyIncome : ℚ
  avgDailyExpense : ℚ
  categoryBreakdown : List CategoryAggregation
  dailySummaries : List DailySummary
  biggestIncomeDay : Option DayKey
  biggestExpenseDay : Option DayKey
  daysWithTransactions : Nat
  deriving DecidableEq, Repr

/-- src/types/index.ts, `AggregationOptions`
(`{ bookIds?: string[], dateFrom?: Date, dateTo?: Date }`). -/
structure AggregationOptions where
  bookIds : Option (List String)
  dateFrom : Option JSDate
  dateTo : Option JSDate
  deriving DecidableEq, Repr

/-- The empty options object `{}`. -/
def noOptions : AggregationOptions :=
  { bookIds := none, dateFrom := none, dateTo := none }

/-! ### Small list helpers mirroring JavaScript idioms -/

/-- JavaScript division as it appears in the source: `none` stands for a
non-finite result (`NaN` or `±Infinity`) arising from a zero divisor. -/
def jsDiv (a b : ℚ) : Option ℚ :=
  if b = 0 then none else some (a / b)

/-- `Math.min(...xs)`: `Infinity` (modelled `none`) on the empty list. -/
def listMin : List ℚ → Option ℚ
  | [] => none
  | a :: l => some (l.foldl min a)

/-- `Math.max(...xs)`: `-Infinity` (modelled `none`) on the empty list. -/
def listMax : List ℚ → Option ℚ
  | [] => none
  | a :: l => some (l.foldl max a)

/-- `xs.reduce((sum, t) => sum + t.amount, 0)`. -/
def sumAmounts (l : List Transaction) : ℚ :=
  (l.map fun t => t.amount).sum

/-- Total amount of a keyed family of transaction buckets. -/
def sumGroups {κ : Type} (gs : List (κ × List Transaction)) : ℚ :=
  (gs.map fun p => sumAmounts p.2).sum

/-- Truthiness of the optional `categoryId` field: both `undefined` and the
empty string are falsy in `if (transaction.categoryId)`. -/
def catTruthy : Option String → Bool
  | none => false
  | some c => !(decide (c = ""))

/-- Append `a` to the bucket keyed `k` of an insertion-ordered association
list, creating the bucket at the end when absent.  This models pushing into
a JavaScript `Map<κ, α[]>` whose iteration order is insertion order. -/
def addToGroups {κ α : Type} [DecidableEq κ] (gs : List (κ × List α)) (k : κ) (a : α) :
    List (κ × List α) :=
  match gs with
  | [] => [(k, [a])]
  | (k', l) :: rest =>
    if k' = k then (k', l ++ [a]) :: rest else (k', l) :: addToGroups rest k a

/-- The `transactions.forEach` loop of `getTransactionsByCategory`
(src/lib/aggregation.ts): transactions with a truthy `categoryId` are pushed
into `categoryMap`, the rest into `uncategorizedTransactions`. -/
def groupByCatAux :
    List Transaction → List (String × List Transaction) → List Transaction →
    List (String × List Transaction) × List Transaction
  | [], gs, un => (gs, un)
  | t :: ts, gs, un =>
    match t.categoryId with
    | some c =>
      if c = "" then groupByCatAux ts gs (un ++ [t])
      else groupByCatAux ts (addToGroups gs c t) un
    | none => groupByCatAux ts gs (un ++ [t])

/-- `(categoryMap, uncategorizedTransactions)` after the forEach loop. -/
def groupByCategory (ts : List Transaction) :
    List (String × List Transaction) × List Transaction :=
  groupByCatAux ts [] []

/-- The `transactions.forEach` date-bucketing loop of `getDailySummaries`
and `getCategoryTrends` (src/lib/aggregation.ts). -/
def groupByDayAux :
    List Transaction → List (DayKey × List Transaction) →
    List (DayKey × List Transaction)
  | [], gs => gs
  | t :: ts, gs => groupByDayAux ts (addToGroups gs (formatDay t.date) t)

/-- `dailyMap` after the forEach loop: buckets keyed by calendar day, in
insertion order. -/
def groupByDay (ts : List Transaction) : List (DayKey × List Transaction) :=
  groupByDayAux ts []

/-- Stable insertion of `a` in front of the first element `b` with
`le a b = true`. -/
def insertBy {α : Type} (le : α → α → Bool) (a : α) : List α → List α
  | [] => [a]
  | b :: l => if le a b then a :: b :: l else b :: insertBy le a l

/-- Stable insertion sort; models `Array.prototype.sort` with a comparator
(stable since ES2019).  `le a b` means `a` may stay in front of `b`. -/
def sortBy {α : Type} (le : α → α → Bool) (l : List α) : List α :=
  l.foldr (insertBy le) []

/-! ### Aggregation engine (src/lib/aggregation.ts), compute paths

The service methods first consult the module cache; the cache layer is
modelled separately below.  The functions here are the cache-miss compute
bodies; the Dexie reads `db.transactions.orderBy('date').toArray()` and
`db.categories.toArray()` are modelled by passing the two tables as
arguments. -/

/-- `getFilteredTransactions(options)` (src/lib/aggregation.ts:300):
read all transactions ordered ascending by date, then filter by book-id
set (skipped for an empty array), `dateFrom`, and `dateTo`. -/
def getFilteredTransactions (txs : List Transaction) (o : AggregationOptions) :
    List Transaction :=
  let ts := sortBy (fun a b => dateLe a.date b.date) txs
  let ts := match o.bookIds with
    | some bs => if bs.length > 0 then ts.filter (fun t => bs.contains t.bookId) else ts
    | none => ts
  let ts := match o.dateFrom with
    | some d => ts.filter (fun t => dateLe d t.date)
    | none => ts
  match o.dateTo with
  | some d => ts.filter (fun t => dateLe t.date d)
  | none => ts

/-- The scope total `transactions.reduce((sum, t) => sum + t.amount, 0)`
used as the percentage denominator (src/lib/aggregation.ts:48). -/
def scopeTotal (txs : List Transaction) (o : AggregationOptions) : ℚ :=
  sumAmounts (getFilteredTransactions txs o)

/-- Body of the `aggregations.push({...})` statements
(src/lib/aggregation.ts:60 and :78): statistics of one category bucket.
`none` when a division or `Math.min`/`Math.max` would be non-finite. -/
def mkCategoryAggregation (cid cname : String) (ctype : CatType)
    (l : List Transaction) (total : ℚ) : Option CategoryAggregation :=
  let amounts := l.map fun t => t.amount
  let catTotal := amounts.sum
  match jsDiv catTotal (l.length : ℚ), listMin amounts, listMax amounts with
  | some avg, some mn, some mx =>
    some { categoryId := cid
           categoryName := cname
           totalAmount := catTotal
           transactionCount := l.length
           averageAmount := avg
           minAmount := mn
           maxAmount := mx
           type := ctype
           percentage := if 0 < total then catTotal / total * 100 else 0 }
  | _, _, _ => none

/-- The `for (const [categoryId, categoryTransactions] of categoryMap)`
loop (src/lib/aggregation.ts:53): a bucket whose category id is not found
in the categories table is skipped (`if (!category) continue`). -/
def buildCategoryAggs (cats : List Category) (total : ℚ) :
    List (String × List Transaction) → Option (List CategoryAggregation)
  | [] => some []
  | (cid, l) :: rest =>
    match cats.find? (fun c => c.id = cid) with
    | none => buildCategoryAggs cats total rest
    | some c =>
      match mkCategoryAggregation cid c.name c.type l total,
          buildCategoryAggs cats total rest with
      | some a, some r => some (a :: r)
      | _, _ => none

/-- Descending-by-`totalAmount` comparator
`(a, b) => b.totalAmount - a.totalAmount` (src/lib/aggregation.ts:92). -/
def aggGe (a b : CategoryAggregation) : Bool :=
  decide (b.totalAmount ≤ a.totalAmount)

/-- `getTransactionsByCategory(options)` (src/lib/aggregation.ts:19),
compute path: filter to scope, partition by truthy `categoryId`, build one
aggregation per surviving bucket plus an `'uncategorized'` bucket when any
transaction lacks a category, and sort descending by total amount. -/
def getTransactionsByCategory (txs : List Transaction) (cats : List Category)
    (o : AggregationOptions) : Option (List CategoryAggregation) :=
  let ts := getFilteredTransactions txs o
  let g := groupByCategory ts
  let total := sumAmounts ts
  match buildCategoryAggs cats total g.1 with
  | none => none
  | some aggs =>
    match g.2 with
    | [] => some (sortBy aggGe aggs)
    | u :: us =>
      match mkCategoryAggregation "uncategorized" "Uncategorized" CatType.both
          (u :: us) total with
      | none => none
      | some ua => some (sortBy aggGe (aggs ++ [ua]))

/-- Descending-by-date comparator `(a, b) => b.date.localeCompare(a.date)`
(src/lib/aggregation.ts:156). -/
def dailyDateGe (a b : DailySummary) : Bool :=
  dayKeyLe b.date a.date

/-- Ascending-by-date comparator `(a, b) => a.date.localeCompare(b.date)`
(src/lib/aggregation.ts:279). -/
def dailyDateLe (a b : DailySummary) : Bool :=
  dayKeyLe a.date b.date

/-- Body of the per-day loop of `getDailySummaries`
(src/lib/aggregation.ts:129): the day's totals together with the top-3
category aggregations obtained by re-running `getTransactionsByCategory`
with `dateFrom` and `dateTo` both set to `new Date(dateKey)` — the
midnight instant, not the whole day. -/
def mkDailySummary (txs : List Transaction) (cats : List Category)
    (o : AggregationOptions) (dk : DayKey) (dayTs : List Transaction) :
    Option DailySummary :=
  let incomeTs := dayTs.filter fun t => t.type = TxType.income
  let expenseTs := dayTs.filter fun t => t.type = TxType.expense
  let totalIncome := sumAmounts incomeTs
  let totalExpense := sumAmounts expenseTs
  match getTransactionsByCategory txs cats
      { o with dateFrom := some (dayStart dk), dateTo := some (dayStart dk) } with
  | none => none
  | some dayCategories =>
    some { date := dk
           totalIncome := totalIncome
           totalExpense := totalExpense
           netAmount := totalIncome - totalExpense
           transactionCount := dayTs.length
           incomeTransactions := incomeTs.length
           expenseTransactions := expenseTs.length
           topCategories := dayCategories.take 3 }

/-- Option-monad traversal of a list, mirroring a loop that pushes one
result per iteration and can only fail through its body. -/
def mapOpt {α β : Type} (f : α → Option β) : List α → Option (List β)
  | [] => some []
  | a :: l =>
    match f a, mapOpt f l with
    | some b, some r => some (b :: r)
    | _, _ => none

/-- `getDailySummaries(options)` (src/lib/aggregation.ts:103), compute
path: bucket the scope by calendar day, summarise each day, and sort
descending by date. -/
def getDailySummaries (txs : List Transaction) (cats : List Category)
    (o : AggregationOptions) : Option (List DailySummary) :=
  let ts := getFilteredTransactions txs o
  match mapOpt (fun p => mkDailySummary txs cats o p.1 p.2) (groupByDay ts) with
  | none => none
  | some summaries => some (sortBy dailyDateGe summaries)

/-- The month-restricted options `{ ...options, dateFrom: startDate,
dateTo: endDate }` of `getMonthlySummary` (src/lib/aggregation.ts:179):
the caller's `dateFrom`/`dateTo` are overwritten, not intersected. -/
def monthOptions (y m : Int) (o : AggregationOptions) : AggregationOptions :=
  { o with dateFrom := some (startOfMonth y m), dateTo := some (endOfMonth y m) }

/-- Descending-by-`totalIncome` comparator (src/lib/aggregation.ts:202). -/
def incomeGe (a b : DailySummary) : Bool :=
  decide (b.totalIncome ≤ a.totalIncome)

/-- Descending-by-`totalExpense` comparator (src/lib/aggregation.ts:203). -/
def expenseGe (a b : DailySummary) : Bool :=
  decide (b.totalExpense ≤ a.totalExpense)

/-- `getMonthlySummary(year, month, options)` (src/lib/aggregation.ts:167),
compute path. -/
def getMonthlySummary (txs : List Transaction) (cats : List Category)
    (y m : Int) (o : AggregationOptions) : Option MonthlySummary :=
  let mo := monthOptions y m o
  let ts := getFilteredTransactions txs mo
  match getTransactionsByCategory txs cats mo, getDailySummaries txs cats mo with
  | some categoryBreakdown, some dailySummaries =>
    let incomeTs := ts.filter fun t => t.type = TxType.income
    let expenseTs := ts.filter fun t => t.type = TxType.expense
    let totalIncome := sumAmounts incomeTs
    let totalExpense := sumAmounts expenseTs
    let dim := daysInMonth y m
    some { year := y
           month := m
           totalIncome := totalIncome
           totalExpense := totalExpense
           netAmount := totalIncome - totalExpense
           transactionCount := ts.length
           incomeTransactions := incomeTs.length
           expenseTransactions := expenseTs.length
           avgDailyIncome := if 0 < dim then totalIncome / (dim : ℚ) else 0
           avgDailyExpense := if 0 < dim then totalExpense / (dim : ℚ) else 0
           categoryBreakdown := categoryBreakdown
           dailySummaries := dailySummaries
           biggestIncomeDay := ((sortBy incomeGe dailySummaries).head?).map fun d => d.date
           biggestExpenseDay := ((sortBy expenseGe dailySummaries).head?).map fun d => d.date
           daysWithTransactions := dailySummaries.length }
  | _, _ => none

/-- `getCategoryTrends(categoryId, options)` (src/lib/aggregation.ts:232),
compute path: scope filtered to a single category id, bucketed by day, no
per-day top categories, sorted ascending by date.  No division occurs, so
the result is total. -/
def getCategoryTrends (txs : List Transaction) (categoryId : String)
    (o : AggregationOptions) : List DailySummary :=
  let ts := getFilteredTransactions txs o
  let categoryTs := ts.filter fun t => t.categoryId = some categoryId
  let summaries := (groupByDay categoryTs).map fun p =>
    let incomeTs := p.2.filter fun t => t.type = TxType.income
    let expenseTs := p.2.filter fun t => t.type = TxType.expense
    let totalIncome := sumAmounts incomeTs
    let totalExpense := sumAmounts expenseTs
    { date := p.1
      totalIncome := totalIncome
      totalExpense := totalExpense
      netAmount := totalIncome - totalExpense
      transactionCount := p.2.length
      incomeTransactions := incomeTs.length
      expenseTransactions := expenseTs.length
      topCategories := ([] : List CategoryAggregation) }
  sortBy dailyDateLe summaries

/-! ### Service layer (src/lib/services.ts)

The file ships two revisions of the services; the operative one is the
later revision with `ServiceError`, `duplicate` and `reverse` (the earlier
revision differs only where noted in the theorems).  The Dexie database is
modelled as `DBState`; `generateId()` and `new Date()` are nondeterministic
effects, passed in as the `newId`/`now` arguments. -/

/-- `ServiceError` codes thrown by the services (src/lib/services.ts:382),
plus the plain `Error` thrown by `duplicate`/`reverse`/`CategoryService`. -/
inductive ServiceErr where
  | invalidId (entity : String)
  | notFound (entity id : String)
  | constraintError (msg : String)
  | plainError (msg : String)
  deriving DecidableEq, Repr

/-- The Dexie tables (src/lib/database.ts). -/
structure DBState where
  books : List Book
  segments : List Segment
  txs : List Transaction
  cats : List Category
  deriving DecidableEq, Repr

/-- `validateId` (src/lib/services.ts:389): rejects a falsy id, i.e. the
empty string in this model. -/
def validateId (id : String) : Bool :=
  !(decide (id = ""))

namespace BookService

/-- `BookService.getBalance(bookId)` (src/lib/services.ts:478): fold the
book's transactions with income positive and expense negative. -/
def getBalance (txs : List Transaction) (bookId : String) : ℚ :=
  (txs.filter fun t => t.bookId = bookId).foldl
    (fun total t => if t.type = TxType.income then total + t.amount else total - t.amount) 0

/-- `db.books.update(bookId, { balance })`: update by primary key; a
missing key makes the call a no-op (Dexie semantics), it creates nothing. -/
def dbUpdateBalance (books : List Book) (bookId : String) (bal : ℚ) : List Book :=
  books.map fun b => if b.id = bookId then { b with balance := bal } else b

/-- `BookService.updateBalance(bookId)` (src/lib/services.ts:497): validate
the id, recompute the balance from the transactions table, and persist it
onto the book record.  No existence check is performed on the book. -/
def updateBalance (s : DBState) (bookId : String) : DBState × Except ServiceErr Unit :=
  if validateId bookId then
    ({ s with books := dbUpdateBalance s.books bookId (getBalance s.txs bookId) },
      Except.ok ())
  else (s, Except.error (ServiceErr.invalidId "book"))

end BookService

namespace SegmentService

/-- `SegmentService.getTotalBalance(segmentId)` (src/lib/services.ts:540):
sum of recomputed balances of the segment's books. -/
def getTotalBalance (s : DBState) (segmentId : String) : ℚ :=
  ((s.books.filter fun b => b.segmentId = some segmentId).map
    fun b => BookService.getBalance s.txs b.id).sum

/-- `SegmentService.updateTotalBalance(segmentId)` (src/lib/services.ts:552). -/
def updateTotalBalance (s : DBState) (segmentId : String) : DBState :=
  { s with segments := s.segments.map fun sg =>
      if sg.id = segmentId then { sg with totalBalance := getTotalBalance s segmentId }
      else sg }

end SegmentService

/-- `Omit<Transaction, 'id' | 'createdAt' | 'updatedAt'>`, the argument of
`TransactionService.create`. -/
structure NewTransaction where
  bookId : String
  type : TxType
  amount : ℚ
  description : String
  notes : Option String
  categoryId : Option String
  date : JSDate
  isRecurring : Bool
  recurringId : Option String
  tags : List String
  originalTransactionId : Option String
  isReversed : Bool
  deriving DecidableEq, Repr

/-- `Partial<Transaction>` as passed to `TransactionService.update`; the
primary key and the managed timestamps are not updated through it. -/
structure TransactionUpdate where
  bookId : Option String
  type : Option TxType
  amount : Option ℚ
  description : Option String
  notes : Option (Option String)
  categoryId : Option (Option String)
  date : Option JSDate
  isRecurring : Option Bool
  recurringId : Option (Option String)
  tags : Option (List String)
  originalTransactionId : Option (Option String)
  isReversed : Option Bool
  deriving DecidableEq, Repr

/-- The no-change update `{}`. -/
def noUpdate : TransactionUpdate :=
  { bookId := none, type := none, amount := none, description := none
    notes := none, categoryId := none, date := none, isRecurring := none
    recurringId := none, tags := none, originalTransactionId := none
    isReversed := none }

/-- `db.transactions.update(id, { ...updates, updatedAt: new Date() })`:
spread the present fields of the partial over the record. -/
def applyUpdate (t : Transaction) (u : TransactionUpdate) (now : JSDate) : Transaction :=
  { t with
    bookId := u.bookId.getD t.bookId
    type := u.type.getD t.type
    amount := u.amount.getD t.amount
    description := u.description.getD t.description
    notes := u.notes.getD t.notes
    categoryId := u.categoryId.getD t.categoryId
    date := u.date.getD t.date
    isRecurring := u.isRecurring.getD t.isRecurring
    recurringId := u.recurringId.getD t.recurringId
    tags := u.tags.getD t.tags
    originalTransactionId := u.originalTransactionId.getD t.originalTransactionId
    isReversed := u.isReversed.getD t.isReversed
    updatedAt := now }

namespace TransactionService

/-- `db.transactions.get(id)`: primary-key lookup. -/
def getById (txs : List Transaction) (id : String) : Option Transaction :=
  txs.find? fun t => t.id = id

/-- `TransactionService.create(transaction)` (src/lib/services.ts:613):
add the new record, then recompute the balance of `transaction.bookId`. -/
def create (s : DBState) (newId : String) (now : JSDate) (nt : NewTransaction) :
    DBState × Except ServiceErr Transaction :=
  let t : Transaction :=
    { id := newId
      bookId := nt.bookId
      type := nt.type
      amount := nt.amount
      description := nt.description
      notes := nt.notes
      categoryId := nt.categoryId
      date := nt.date
      createdAt := now
      updatedAt := now
      isRecurring := nt.isRecurring
      recurringId := nt.recurringId
      tags := nt.tags
      originalTransactionId := nt.originalTransactionId
      isReversed := nt.isReversed }
  let s1 : DBState := { s with txs := s.txs ++ [t] }
  let r := BookService.updateBalance s1 nt.bookId
  (r.1, r.2.map fun _ => t)

/-- `TransactionService.update(id, updates)` (src/lib/services.ts:629):
return silently when the id is unknown; otherwise apply the partial update
and recompute the balance of `transaction.bookId` — the book id of the
record as it was BEFORE the update. -/
def update (s : DBState) (now : JSDate) (id : String) (u : TransactionUpdate) :
    DBState × Except ServiceErr Unit :=
  match getById s.txs id with
  | none => (s, Except.ok ())
  | some t =>
    let s1 : DBState :=
      { s with txs := s.txs.map fun t' => if t'.id = id then applyUpdate t' u now else t' }
    BookService.updateBalance s1 t.bookId

/-- `TransactionService.delete(id)` (src/lib/services.ts:639): return
silently when the id is unknown; otherwise remove the record and recompute
the balance of the record's book. -/
def delete (s : DBState) (id : String) : DBState × Except ServiceErr Unit :=
  match getById s.txs id with
  | none => (s, Except.ok ())
  | some t =>
    let s1 : DBState := { s with txs := s.txs.filter fun t' => !(decide (t'.id = id)) }
    BookService.updateBalance s1 t.bookId

/-- `targetBookId || original.bookId`: JavaScript falsiness of the optional
target (absent or empty string falls back to the original's book). -/
def pickBookId (targetBookId : Option String) (orig : String) : String :=
  match targetBookId with
  | some b => if b = "" then orig else b
  | none => orig

/-- `TransactionService.duplicate(transactionId, targetBookId?)`
(src/lib/services.ts:672): create a copy (optionally into another book)
with a provenance link and a `Copy of` description. -/
def duplicate (s : DBState) (newId : String) (now : JSDate) (transactionId : String)
    (targetBookId : Option String) : DBState × Except ServiceErr Transaction :=
  match getById s.txs transactionId with
  | none => (s, Except.error (ServiceErr.plainError "Transaction not found"))
  | some original =>
    create s newId now
      { bookId := pickBookId targetBookId original.bookId
        type := original.type
        amount := original.amount
        description := "Copy of " ++ original.description
        notes := original.notes
        categoryId := original.categoryId
        date := original.date
        isRecurring := original.isRecurring
        recurringId := original.recurringId
        tags := original.tags
        originalTransactionId := some transactionId
        isReversed := original.isReversed }

/-- `TransactionService.reverse(transactionId, targetBookId?)`
(src/lib/services.ts:688): create a type-flipped copy with the reversed
flag set. -/
def reverse (s : DBState) (newId : String) (now : JSDate) (transactionId : String)
    (targetBookId : Option String) : DBState × Except ServiceErr Transaction :=
  match getById s.txs transactionId with
  | none => (s, Except.error (ServiceErr.plainError "Transaction not found"))
  | some original =>
    create s newId now
      { bookId := pickBookId targetBookId original.bookId
        type := if original.type = TxType.income then TxType.expense else TxType.income
        amount := original.amount
        description := "Reversal of " ++ original.description
        notes := original.notes
        categoryId := original.categoryId
        date := original.date
        isRecurring := original.isRecurring
        recurringId := original.recurringId
        tags := original.tags
        originalTransactionId := some transactionId
        isReversed := true }

end TransactionService

namespace CategoryService

/-- `CategoryService.delete(id)` (src/lib/services.ts:755): count the
transactions referencing the category; reject the deletion with an error
when any exist, otherwise remove the category record.  (The earlier
revision of the file, src/lib/services.ts:242, deletes unconditionally.) -/
def delete (s : DBState) (id : String) : DBState × Except ServiceErr Unit :=
  let transactionsCount := (s.txs.filter fun t => t.categoryId = some id).length
  if transactionsCount > 0 then
    (s, Except.error
      (ServiceErr.plainError "Cannot delete category that is being used by transactions"))
  else
    ({ s with cats := s.cats.filter fun c => !(decide (c.id = id)) }, Except.ok ())

end CategoryService

/-! ### Cache layer

Modelled from the spec: `src/lib/cache.ts` (the `globalCache` /
`CacheService` module imported by src/lib/aggregation.ts) is not present in
the snapshot.  Per spec section 4.1: `generateKey(kind, params)` produces a
deterministic key from the kind and the sorted-key serialization of the
parameters (modelled structurally as the pair of the kind and a canonical
parameter string); `get` returns a stored value only while
`now < timestamp + ttl`; `set` stores with the current timestamp and a
default ttl; `invalidatePattern(substring)` removes every entry whose key
contains the substring — used only with whole kind names, modelled as
matching on the kind component. -/

/-- Canonical serialization of an optional value. -/
def encodeOpt {α : Type} (f : α → String) : Option α → String
  | none => "-"
  | some a => f a

/-- Canonical serialization of a date. -/
def encodeDate (d : JSDate) : String :=
  toString d.year ++ "," ++ toString d.month ++ "," ++ toString d.day ++ ","
    ++ toString d.ms

/-- Modelled from the spec: sorted-key serialization of
`AggregationOptions` (fields in order bookIds, dateFrom, dateTo). -/
def encodeOptions (o : AggregationOptions) : String :=
  "bookIds:" ++ encodeOpt (String.intercalate ";") o.bookIds
    ++ "|dateFrom:" ++ encodeOpt encodeDate o.dateFrom
    ++ "|dateTo:" ++ encodeOpt encodeDate o.dateTo

/-- A cached aggregation result (one of the four aggregation kinds). -/
inductive CacheValue where
  | catAgg (v : List CategoryAggregation)
  | daily (v : List DailySummary)
  | monthly (v : MonthlySummary)
  | trends (v : List DailySummary)
  deriving DecidableEq, Repr

/-- A cache entry: key = (kind, serialized params), value, insertion
timestamp, time-to-live. -/
structure CacheEntry where
  kind : String
  params : String
  value : CacheValue
  timestamp : Int
  ttl : Int
  deriving DecidableEq, Repr

/-- Modelled from the spec: the default ttl of the cache (5 minutes). -/
def defaultTTL : Int := 300000

/-- Modelled from the spec: `get` returns the entry's value only while
present and unexpired. -/
def cacheGet (entries : List CacheEntry) (now : Int) (kind params : String) :
    Option CacheValue :=
  match entries.find? (fun e => e.kind = kind ∧ e.params = params) with
  | some e => if now < e.timestamp + e.ttl then some e.value else none
  | none => none

/-- Modelled from the spec: `set` overwrites any entry with the same key. -/
def cacheSet (entries : List CacheEntry) (now : Int) (kind params : String)
    (v : CacheValue) : List CacheEntry :=
  (entries.filter fun e => !(decide (e.kind = kind ∧ e.params = params)))
    ++ [{ kind := kind, params := params, value := v, timestamp := now, ttl := defaultTTL }]

/-- Modelled from the spec: `invalidatePattern` with a kind name removes
every entry of that kind. -/
def invalidatePattern (entries : List CacheEntry) (kind : String) : List CacheEntry :=
  entries.filter fun e => !(decide (e.kind = kind))

/-- The application state seen by the aggregation service: the database
plus the module-level `globalCache`. -/
structure AppState where
  db : DBState
  cache : List CacheEntry
  deriving DecidableEq, Repr

namespace AggregationService

/-- `AggregationService.getTransactionsByCategory` including its cache
consultation (src/lib/aggregation.ts:19): return the cached list when
present and unexpired, otherwise compute, store, and return. -/
def getTransactionsByCategoryCached (s : AppState) (now : Int)
    (o : AggregationOptions) : Option (List CategoryAggregation) × AppState :=
  let params := encodeOptions o
  match cacheGet s.cache now "category-aggregation" params with
  | some (CacheValue.catAgg v) => (some v, s)
  | _ =>
    match getTransactionsByCategory s.db.txs s.db.cats o with
    | none => (none, s)
    | some r =>
      let cache' := cacheSet s.cache now "category-aggregation" params (CacheValue.catAgg r)
      (some r, { s with cache := cache' })

/-- `AggregationService.clearCache()` (src/lib/aggregation.ts:290):
blanket-invalidate all four aggregation kinds.  No code path in the
repository invokes it. -/
def clearCache (s : AppState) : AppState :=
  let c1 := invalidatePattern s.cache "category-aggregation"
  let c2 := invalidatePattern c1 "daily-summaries"
  let c3 := invalidatePattern c2 "monthly-summary"
  let c4 := invalidatePattern c3 "category-trends"
  { s with cache := c4 }

end AggregationService

/-- `TransactionService.create` lifted to the application state: the
source mutation touches only the database; the aggregation cache is left
untouched (no call to `clearCache` exists on any mutation path). -/
def createTransactionApp (s : AppState) (newId : String) (now : JSDate)
    (nt : NewTransaction) : AppState × Except ServiceErr Transaction :=
  let r := TransactionService.create s.db newId now nt
  ({ s with db := r.1 }, r.2)

/-! ### Concrete fixtures for the evaluation theorems -/

/-- 2024-03-01 00:00:00.000. -/
def mar1 : JSDate := { year := 2024, month := 3, day := 1, ms := 0 }

/-- 2024-03-01 10:00:00.000 — a transaction time strictly inside the day. -/
def mar1at10 : JSDate := { year := 2024, month := 3, day := 1, ms := 36000000 }

/-- 2024-03-01 23:59:59.999. -/
def mar1end : JSDate := { year := 2024, month := 3, day := 1, ms := 86399999 }

/-- 2024-03-05 00:00:00.000. -/
def mar5 : JSDate := { year := 2024, month := 3, day := 5, ms := 0 }

def foodCategory : Category :=
  { id := "food", name := "Food", type := CatType.expense, color := "#ef4444",
    icon := "utensils", isDefault := true, isActive := true,
    createdAt := mar1, updatedAt := mar1 }

def bookA : Book :=
  { id := "A", name := "Wallet", description := none, segmentId := none,
    currency := "USD", color := "#333333", icon := "wallet", isActive := true,
    createdAt := mar1, updatedAt := mar1, balance := 10 }

def bookB : Book :=
  { bookA with id := "B", name := "Savings", balance := 0 }

/-- An expense of 30 in book A, categorized "food", at 10:00 on 2024-03-01. -/
def txFood : Transaction :=
  { id := "t1", bookId := "A", type := TxType.expense, amount := 30,
    description := "lunch", notes := none, categoryId := some "food",
    date := mar1at10, createdAt := mar1at10, updatedAt := mar1at10,
    isRecurring := false, recurringId := none, tags := [],
    originalTransactionId := none, isReversed := false }

/-- An expense of 30 whose `categoryId` references no existing category. -/
def txGhostCat : Transaction :=
  { txFood with id := "t2", categoryId := some "ghost" }

/-- An income of 10 in book A with no category, at midnight on 2024-03-01. -/
def txIncomeA : Transaction :=
  { txFood with
    id := "t3"
    type := TxType.income
    amount := 10
    categoryId := none
    date := mar1
    createdAt := mar1
    updatedAt := mar1 }

/-- The aggregation row the Food bucket produces for the single
transaction `txFood`. -/
def foodAgg : CategoryAggregation :=
  { categoryId := "food", categoryName := "Food", totalAmount := 30,
    transactionCount := 1, averageAmount := 30, minAmount := 30,
    maxAmount := 30, type := CatType.expense, percentage := 100 }

def emptyDB : DBState := { books := [], segments := [], txs := [], cats := [] }

/-- The two-book state for the moved-transaction scenario: income 10
(`txIncomeA`) lives in book A, whose stored balance 10 is consistent. -/
def dbMove : DBState :=
  { books := [bookA, bookB], segments := [], txs := [txIncomeA], cats := [] }

/-- The partial update `{ bookId: "B" }` that moves the transaction. -/
def moveToB : TransactionUpdate := { noUpdate with bookId := some "B" }

/-- The state after `TransactionService.update("t3", { bookId: "B" })`. -/
def dbMoved : DBState := (TransactionService.update dbMove mar1 "t3" moveToB).1

/-- Application state with one book, the Food category, no transactions,
and an empty aggregation cache. -/
def appInit : AppState :=
  { db := { books := [bookA], segments := [], txs := [], cats := [foodCategory] },
    cache := [] }

/-- After one cached aggregation read: the empty result is now cached. -/
def appCached : AppState :=
  (AggregationService.getTransactionsByCategoryCached appInit 0 noOptions).2

/-- The new-transaction payload for the Food expense of 30. -/
def ntFood : NewTransaction :=
  { bookId := "A", type := TxType.expense, amount := 30, description := "lunch",
    notes := none, categoryId := some "food", date := mar1at10,
    isRecurring := false, recurringId := none, tags := [],
    originalTransactionId := none, isReversed := false }

/-- After `TransactionService.create`: the database has the transaction,
the cache still holds the stale empty aggregation (no mutation path calls
`clearCache`). -/
def appMutated : AppState := (createTransactionApp appCached "t1" mar1at10 ntFood).1

/-- A database whose only transaction references the Food category. -/
def dbCat : DBState :=
  { books := [], segments := [], txs := [txFood], cats := [foodCategory] }

/-- The uncategorized bucket produced for the single transaction
`txIncomeA`. -/
def uncatAgg : CategoryAggregation :=
  { categoryId := "uncategorized", categoryName := "Uncategorized",
    totalAmount := 10, transactionCount := 1, averageAmount := 10,
    minAmount := 10, maxAmount := 10, type := CatType.both, percentage := 100 }

/-! ### Structural lemmas about the embedded operations -/

theorem insertBy_perm {α : Type} (le : α → α → Bool) (a : α) (l : List α) :
    List.Perm (insertBy le a l) (a :: l) := by
  induction l with
  | nil => simp [insertBy]
  | cons b l ih =>
    by_cases h : le a b = true
    · simp [insertBy, h]
    · have h2 : insertBy le a (b :: l) = b :: insertBy le a l := by
        simp [insertBy, h]
      rw [h2]
      exact List.Perm.trans (List.Perm.cons b ih) (List.Perm.swap a b l)

theorem sortBy_perm {α : Type} (le : α → α → Bool) (l : List α) :
    List.Perm (sortBy le l) l := by
  induction l with
  | nil => simp [sortBy]
  | cons a l ih =>
    have h1 : sortBy le (a :: l) = insertBy le a (sortBy le l) := rfl
    rw [h1]
    exact List.Perm.trans (insertBy_perm le a (sortBy le l)) (List.Perm.cons a ih)

theorem sortBy_map_sum (le : CategoryAggregation → CategoryAggregation → Bool)
    (f : CategoryAggregation → ℚ) (l : List CategoryAggregation) :
    ((sortBy le l).map f).sum = (l.map f).sum :=
  ((sortBy_perm le l).map f).sum_eq

theorem sortBy_mem_iff {α : Type} (le : α → α → Bool) (a : α) (l : List α) :
    a ∈ sortBy le l ↔ a ∈ l :=
  (sortBy_perm le l).mem_iff

theorem sumAmounts_nil : sumAmounts [] = 0 := rfl

theorem sumAmounts_append (l₁ l₂ : List Transaction) :
    sumAmounts (l₁ ++ l₂) = sumAmounts l₁ + sumAmounts l₂ := by
  simp [sumAmounts]

theorem sumGroups_cons {κ : Type} (p : κ × List Transaction)
    (gs : List (κ × List Transaction)) :
    sumGroups (p :: gs) = sumAmounts p.2 + sumGroups gs := by
  simp [sumGroups]

/-- Adding one element to a keyed bucket family adds its amount to the
family total. -/
theorem addToGroups_sum {κ : Type} [DecidableEq κ]
    (gs : List (κ × List Transaction)) (k : κ) (t : Transaction) :
    sumGroups (addToGroups gs k t) = sumGroups gs + t.amount := by
  induction gs with
  | nil => simp [addToGroups, sumGroups, sumAmounts]
  | cons p gs ih =>
    obtain ⟨k', l⟩ := p
    by_cases h : k' = k
    · simp only [addToGroups, if_pos h, sumGroups_cons, sumAmounts_append]
      simp [sumAmounts]
      ring
    · simp only [addToGroups, if_neg h, sumGroups_cons, ih]
      ring

/-- Keyed invariants survive `addToGroups`: if every bucket member is
related to its key and the new element is related to the new key, the same
holds afterwards. -/
theorem addToGroups_keyed {κ α : Type} [DecidableEq κ] (R : κ → α → Prop)
    (gs : List (κ × List α)) (k : κ) (a : α)
    (hgs : ∀ p ∈ gs, ∀ x ∈ p.2, R p.1 x) (ha : R k a) :
    ∀ p ∈ addToGroups gs k a, ∀ x ∈ p.2, R p.1 x := by
  induction gs with
  | nil =>
    intro p hp x hx
    simp only [addToGroups, List.mem_singleton] at hp
    subst hp
    simp only [List.mem_singleton] at hx
    subst hx
    exact ha
  | cons q gs ih =>
    obtain ⟨k', l⟩ := q
    by_cases h : k' = k
    · subst h
      intro p hp x hx
      simp only [addToGroups, if_true, eq_self_iff_true, List.mem_cons] at hp
      rcases hp with hp | hp
      · subst hp
        simp only [List.mem_append, List.mem_singleton] at hx
        rcases hx with hx | hx
        · exact hgs (k', l) (List.mem_cons_self _ _) x hx
        · subst hx; exact ha
      · exact hgs p (List.mem_cons_of_mem _ hp) x hx
    · intro p hp x hx
      simp only [addToGroups, if_neg h, List.mem_cons] at hp
      rcases hp with hp | hp
      · subst hp
        exact hgs (k', l) (List.mem_cons_self _ _) x hx
      · exact ih (fun q hq => hgs q (List.mem_cons_of_mem _ hq)) p hp x hx

/-- `addToGroups` never creates an empty bucket. -/
theorem addToGroups_ne_nil {κ α : Type} [DecidableEq κ]
    (gs : List (κ × List α)) (k : κ) (a : α)
    (hgs : ∀ p ∈ gs, p.2 ≠ []) :
    ∀ p ∈ addToGroups gs k a, p.2 ≠ [] := by
  induction gs with
  | nil =>
    intro p hp
    simp only [addToGroups, List.mem_singleton] at hp
    subst hp
    simp
  | cons q gs ih =>
    obtain ⟨k', l⟩ := q
    by_cases h : k' = k
    · intro p hp
      simp only [addToGroups, if_pos h, List.mem_cons] at hp
      rcases hp with hp | hp
      · subst hp; simp
      · exact hgs p (List.mem_cons_of_mem _ hp)
    · intro p hp
      simp only [addToGroups, if_neg h, List.mem_cons] at hp
      rcases hp with hp | hp
      · subst hp; exact hgs (k', l) (List.mem_cons_self _ _)
      · exact ih (fun q hq => hgs q (List.mem_cons_of_mem _ hq)) p hp

/-- The category-partition loop preserves the running total: bucket sums
plus the uncategorized sum account exactly for every processed amount. -/
theorem groupByCatAux_sum (ts : List Transaction)
    (gs : List (String × List Transaction)) (un : List Transaction) :
    sumGroups (groupByCatAux ts gs un).1 + sumAmounts (groupByCatAux ts gs un).2
      = sumGroups gs + sumAmounts un + sumAmounts ts := by
  induction ts generalizing gs un with
  | nil => simp [groupByCatAux, sumAmounts]
  | cons t ts ih =>
    match hc : t.categoryId with
    | none =>
      simp only [groupByCatAux, hc, ih, sumAmounts_append]
      simp [sumAmounts]
      ring
    | some c =>
      by_cases h : c = ""
      · simp only [groupByCatAux, hc, if_pos h, ih, sumAmounts_append]
        simp [sumAmounts]
        ring
      · simp only [groupByCatAux, hc, if_neg h, ih, addToGroups_sum]
        simp [sumAmounts]
        ring

/-- Keyed invariants of the category partition: every member of a bucket
carries that bucket's (truthy) category id. -/
theorem groupByCatAux_keyed (R : String → Transaction → Prop) (ts : List Transaction)
    (gs : List (String × List Transaction)) (un : List Transaction)
    (hgs : ∀ p ∈ gs, ∀ x ∈ p.2, R p.1 x)
    (hts : ∀ t ∈ ts, ∀ c, t.categoryId = some c → c ≠ "" → R c t) :
    ∀ p ∈ (groupByCatAux ts gs un).1, ∀ x ∈ p.2, R p.1 x := by
  induction ts generalizing gs un with
  | nil => simpa [groupByCatAux] using hgs
  | cons t ts ih =>
    have hts' : ∀ t' ∈ ts, ∀ c, t'.categoryId = some c → c ≠ "" → R c t' :=
      fun t' ht' => hts t' (List.mem_cons_of_mem _ ht')
    match hc : t.categoryId with
    | none =>
      simp only [groupByCatAux, hc]
      exact ih gs (un ++ [t]) hgs hts'
    | some c =>
      by_cases h : c = ""
      · simp only [groupByCatAux, hc, if_pos h]
        exact ih gs (un ++ [t]) hgs hts'
      · simp only [groupByCatAux, hc, if_neg h]
        exact ih (addToGroups gs c t) un
          (addToGroups_keyed R gs c t hgs (hts t (List.mem_cons_self _ _) c hc h)) hts'

/-- The category partition never produces an empty bucket. -/
theorem groupByCatAux_ne_nil (ts : List Transaction)
    (gs : List (String × List Transaction)) (un : List Transaction)
    (hgs : ∀ p ∈ gs, p.2 ≠ []) :
    ∀ p ∈ (groupByCatAux ts gs un).1, p.2 ≠ [] := by
  induction ts generalizing gs un with
  | nil => simpa [groupByCatAux] using hgs
  | cons t ts ih =>
    match hc : t.categoryId with
    | none =>
      simp only [groupByCatAux, hc]
      exact ih gs (un ++ [t]) hgs
    | some c =>
      by_cases h : c = ""
      · simp only [groupByCatAux, hc, if_pos h]
        exact ih gs (un ++ [t]) hgs
      · simp only [groupByCatAux, hc, if_neg h]
        exact ih (addToGroups gs c t) un (addToGroups_ne_nil gs c t hgs)

/-- The uncategorized side of the partition is exactly the sublist of
transactions with a falsy `categoryId`, appended to the accumulator. -/
theorem groupByCatAux_un (ts : List Transaction)
    (gs : List (String × List Transaction)) (un : List Transaction) :
    (groupByCatAux ts gs un).2
      = un ++ ts.filter (fun t => !(catTruthy t.categoryId)) := by
  induction ts generalizing gs un with
  | nil => simp [groupByCatAux]
  | cons t ts ih =>
    match hc : t.categoryId with
    | none =>
      simp only [groupByCatAux, hc, ih]
      simp [catTruthy, hc]
    | some c =>
      by_cases h : c = ""
      · simp only [groupByCatAux, hc, if_pos h, ih]
        simp [catTruthy, hc, h]
      · simp only [groupByCatAux, hc, if_neg h, ih]
        simp [catTruthy, hc, h]

/-- A nonempty bucket yields a well-defined aggregation: the averaging
division and `Math.min`/`Math.max` are all finite. -/
theorem mkCategoryAggregation_isSome (cid cname : String) (ctype : CatType)
    (l : List Transaction) (total : ℚ) (hl : l ≠ []) :
    ∃ a, mkCategoryAggregation cid cname ctype l total = some a := by
  match l, hl with
  | t :: l', _ =>
    have hlen : ¬((l'.length : ℚ) + 1 = 0) := by positivity
    simp only [mkCategoryAggregation, jsDiv, listMin, listMax, List.map_cons,
      List.length_cons, Nat.cast_add, Nat.cast_one, if_neg hlen]
    exact ⟨_, rfl⟩

/-- Field contents of a bucket aggregation. -/
theorem mkCategoryAggregation_spec (cid cname : String) (ctype : CatType)
    (l : List Transaction) (total : ℚ) (a : CategoryAggregation)
    (h : mkCategoryAggregation cid cname ctype l total = some a) :
    a.categoryId = cid ∧ a.totalAmount = sumAmounts l ∧
      a.percentage = (if 0 < total then sumAmounts l / total * 100 else 0) := by
  match l with
  | [] =>
    simp [mkCategoryAggregation, jsDiv, listMin, listMax] at h
  | t :: l' =>
    have hlen : ¬((l'.length : ℚ) + 1 = 0) := by positivity
    simp only [mkCategoryAggregation, jsDiv, listMin, listMax, List.map_cons,
      List.length_cons, Nat.cast_add, Nat.cast_one, if_neg hlen,
      Option.some_inj] at h
    subst h
    refine ⟨rfl, by simp [sumAmounts], ?_⟩
    simp [sumAmounts]

/-- A category id that exists in the table is found by
`categories.find(c => c.id === categoryId)`. -/
theorem find_category_isSome (cats : List Category) (cid : String)
    (h : ∃ c ∈ cats, c.id = cid) :
    ∃ c, cats.find? (fun c => c.id = cid) = some c := by
  obtain ⟨c, hc, hid⟩ := h
  have : (cats.find? (fun c => decide (c.id = cid))).isSome := by
    rw [List.find?_isSome]
    exact ⟨c, hc, by simp [hid]⟩
  exact Option.isSome_iff_exists.mp this

/-- The bucket loop is total when every bucket is nonempty (the only
failure mode is the average over an empty bucket). -/
theorem buildCategoryAggs_isSome (cats : List Category) (total : ℚ)
    (gs : List (String × List Transaction)) (hne : ∀ p ∈ gs, p.2 ≠ []) :
    ∃ r, buildCategoryAggs cats total gs = some r := by
  induction gs with
  | nil => exact ⟨[], rfl⟩
  | cons p gs ih =>
    obtain ⟨cid, l⟩ := p
    obtain ⟨r, hr⟩ := ih fun q hq => hne q (List.mem_cons_of_mem _ hq)
    match hf : cats.find? (fun c => c.id = cid) with
    | none =>
      exact ⟨r, by simp only [buildCategoryAggs, hf, hr]⟩
    | some c =>
      obtain ⟨a, ha⟩ := mkCategoryAggregation_isSome cid c.name c.type l total
        (hne (cid, l) (List.mem_cons_self _ _))
      exact ⟨a :: r, by simp only [buildCategoryAggs, hf, ha, hr]⟩

/-- Every aggregation produced by the bucket loop names an existing
category. -/
theorem buildCategoryAggs_mem (cats : List Category) (total : ℚ)
    (gs : List (String × List Transaction)) (r : List CategoryAggregation)
    (h : buildCategoryAggs cats total gs = some r) :
    ∀ a ∈ r, ∃ c ∈ cats, c.id = a.categoryId := by
  induction gs generalizing r with
  | nil =>
    simp only [buildCategoryAggs, Option.some_inj] at h
    subst h
    intro a ha
    exact absurd ha (List.not_mem_nil a)
  | cons p gs ih =>
    obtain ⟨cid, l⟩ := p
    match hf : cats.find? (fun c => c.id = cid) with
    | none =>
      simp only [buildCategoryAggs, hf] at h
      exact ih r h
    | some c =>
      simp only [buildCategoryAggs, hf] at h
      match ha : mkCategoryAggregation cid c.name c.type l total,
          hrest : buildCategoryAggs cats total gs with
      | some a, some r' =>
        rw [ha, hrest, Option.some_inj] at h
        subst h
        intro b hb
        rcases List.mem_cons.mp hb with hb | hb
        · have hcid := (mkCategoryAggregation_spec cid c.name c.type l total a ha).1
          have hcmem : c ∈ cats := List.mem_of_find?_eq_some hf
          have hceq := List.find?_some hf
          simp only [decide_eq_true_eq] at hceq
          exact ⟨c, hcmem, by rw [hb, hcid]; exact hceq⟩
        · exact ih r' hrest b hb
      | some a, none => rw [ha, hrest] at h; exact absurd h (by simp)
      | none, _ => rw [ha] at h; exact absurd h (by simp)

/-- Percentage total of the bucket loop when the scope total is positive
and every bucket's category exists: the bucket sums convert to
percentages of the scope total. -/
theorem buildCategoryAggs_percentage_sum (cats : List Category) (total : ℚ)
    (gs : List (String × List Transaction)) (r : List CategoryAggregation)
    (htotal : 0 < total)
    (hne : ∀ p ∈ gs, p.2 ≠ [])
    (hex : ∀ p ∈ gs, ∃ c ∈ cats, c.id = p.1)
    (h : buildCategoryAggs cats total gs = some r) :
    (r.map fun a => a.percentage).sum = sumGroups gs / total * 100 := by
  induction gs generalizing r with
  | nil =>
    simp only [buildCategoryAggs, Option.some_inj] at h
    subst h
    simp [sumGroups]
  | cons p gs ih =>
    obtain ⟨cid, l⟩ := p
    obtain ⟨c, hf⟩ := find_category_isSome cats cid (hex (cid, l) (List.mem_cons_self _ _))
    simp only [buildCategoryAggs, hf] at h
    match ha : mkCategoryAggregation cid c.name c.type l total,
        hrest : buildCategoryAggs cats total gs with
    | some a, some r' =>
      rw [ha, hrest, Option.some_inj] at h
      subst h
      have hper := (mkCategoryAggregation_spec cid c.name c.type l total a ha).2.2
      have hrec := ih r' (fun q hq => hne q (List.mem_cons_of_mem _ hq))
        (fun q hq => hex q (List.mem_cons_of_mem _ hq)) hrest
      simp only [List.map_cons, List.sum_cons, hrec, hper, if_pos htotal,
        sumGroups_cons]
      rw [add_div, add_mul]
    | some a, none => rw [ha, hrest] at h; exact absurd h (by simp)
    | none, _ =>
      rw [ha] at h
      obtain ⟨a', ha'⟩ := mkCategoryAggregation_isSome cid c.name c.type l total
        (hne (cid, l) (List.mem_cons_self _ _))
      exact absurd ha' (by rw [ha]; simp)

/-- Every percentage produced by the bucket loop is zero when the scope
total is not positive. -/
theorem buildCategoryAggs_percentage_zero (cats : List Category) (total : ℚ)
    (gs : List (String × List Transaction)) (r : List CategoryAggregation)
    (htotal : ¬ 0 < total)
    (h : buildCategoryAggs cats total gs = some r) :
    ∀ a ∈ r, a.percentage = 0 := by
  induction gs generalizing r with
  | nil =>
    simp only [buildCategoryAggs, Option.some_inj] at h
    subst h
    intro a ha
    exact absurd ha (List.not_mem_nil a)
  | cons p gs ih =>
    obtain ⟨cid, l⟩ := p
    match hf : cats.find? (fun c => c.id = cid) with
    | none =>
      simp only [buildCategoryAggs, hf] at h
      exact ih r h
    | some c =>
      simp only [buildCategoryAggs, hf] at h
      match ha : mkCategoryAggregation cid c.name c.type l total,
          hrest : buildCategoryAggs cats total gs with
      | some a, some r' =>
        rw [ha, hrest, Option.some_inj] at h
        subst h
        intro b hb
        rcases List.mem_cons.mp hb with hb | hb
        · subst hb
          have hper := (mkCategoryAggregation_spec cid c.name c.type l total b ha).2.2
          rw [hper, if_neg htotal]
        · exact ih r' hrest b hb
      | some a, none => rw [ha, hrest] at h; exact absurd h (by simp)
      | none, _ => rw [ha] at h; exact absurd h (by simp)

/-- `getTransactionsByCategory` is total: every division it performs has a
nonzero divisor, so no `NaN`/`Infinity` can appear in a result field. -/
theorem getTransactionsByCategory_isSome (txs : List Transaction)
    (cats : List Category) (o : AggregationOptions) :
    ∃ r, getTransactionsByCategory txs cats o = some r := by
  set ts := getFilteredTransactions txs o with hts
  have hne := groupByCatAux_ne_nil ts [] [] (by simp)
  obtain ⟨aggs, haggs⟩ :=
    buildCategoryAggs_isSome cats (sumAmounts ts) ((groupByCatAux ts [] []).1) hne
  match hu : (groupByCatAux ts [] []).2 with
  | [] =>
    refine ⟨sortBy aggGe aggs, ?_⟩
    simp only [getTransactionsByCategory, groupByCategory, ← hts, haggs, hu]
  | u :: us =>
    obtain ⟨ua, hua⟩ := mkCategoryAggregation_isSome "uncategorized" "Uncategorized"
      CatType.both (u :: us) (sumAmounts ts) (by simp)
    refine ⟨sortBy aggGe (aggs ++ [ua]), ?_⟩
    simp only [getTransactionsByCategory, groupByCategory, ← hts, haggs, hu, hua]

/-- An empty scope produces the empty aggregation list, not a failure. -/
theorem getTransactionsByCategory_empty (txs : List Transaction)
    (cats : List Category) (o : AggregationOptions)
    (h : getFilteredTransactions txs o = []) :
    getTransactionsByCategory txs cats o = some [] := by
  simp [getTransactionsByCategory, h, groupByCategory, groupByCatAux,
    buildCategoryAggs, sortBy]

theorem mapOpt_isSome {α β : Type} (f : α → Option β) (l : List α)
    (h : ∀ a ∈ l, ∃ b, f a = some b) : ∃ r, mapOpt f l = some r := by
  induction l with
  | nil => exact ⟨[], rfl⟩
  | cons a l ih =>
    obtain ⟨b, hb⟩ := h a (List.mem_cons_self _ _)
    obtain ⟨r, hr⟩ := ih fun x hx => h x (List.mem_cons_of_mem _ hx)
    exact ⟨b :: r, by simp only [mapOpt, hb, hr]⟩

/-- Each per-day summary is well-defined (its embedded category breakdown
is total). -/
theorem mkDailySummary_isSome (txs : List Transaction) (cats : List Category)
    (o : AggregationOptions) (dk : DayKey) (dayTs : List Transaction) :
    ∃ d, mkDailySummary txs cats o dk dayTs = some d := by
  obtain ⟨r, hr⟩ := getTransactionsByCategory_isSome txs cats
    { o with dateFrom := some (dayStart dk), dateTo := some (dayStart dk) }
  have hs : (mkDailySummary txs cats o dk dayTs).isSome := by
    simp only [mkDailySummary, hr, Option.isSome_some]
  exact Option.isSome_iff_exists.mp hs

/-- `getDailySummaries` is total. -/
theorem getDailySummaries_isSome (txs : List Transaction) (cats : List Category)
    (o : AggregationOptions) :
    ∃ r, getDailySummaries txs cats o = some r := by
  obtain ⟨rs, hrs⟩ := mapOpt_isSome (fun p => mkDailySummary txs cats o p.1 p.2)
    (groupByDay (getFilteredTransactions txs o))
    (fun p _ => mkDailySummary_isSome txs cats o p.1 p.2)
  exact ⟨sortBy dailyDateGe rs, by simp only [getDailySummaries, hrs]⟩

/-- An empty scope produces the empty list of daily summaries. -/
theorem getDailySummaries_empty (txs : List Transaction) (cats : List Category)
    (o : AggregationOptions) (h : getFilteredTransactions txs o = []) :
    getDailySummaries txs cats o = some [] := by
  simp [getDailySummaries, h, groupByDay, groupByDayAux, mapOpt, sortBy]

/-- `getMonthlySummary` is total. -/
theorem getMonthlySummary_isSome (txs : List Transaction) (cats : List Category)
    (y m : Int) (o : AggregationOptions) :
    ∃ r, getMonthlySummary txs cats y m o = some r := by
  obtain ⟨cb, hcb⟩ := getTransactionsByCategory_isSome txs cats (monthOptions y m o)
  obtain ⟨ds, hds⟩ := getDailySummaries_isSome txs cats (monthOptions y m o)
  have hs : (getMonthlySummary txs cats y m o).isSome := by
    simp only [getMonthlySummary, hcb, hds, Option.isSome_some]
  exact Option.isSome_iff_exists.mp hs

/-- A month whose scope matches no transaction yields the zero-filled
summary: all totals and averages 0, empty breakdowns, no biggest days. -/
theorem getMonthlySummary_empty (txs : List Transaction) (cats : List Category)
    (y m : Int) (o : AggregationOptions) (ms : MonthlySummary)
    (h : getFilteredTransactions txs (monthOptions y m o) = [])
    (hms : getMonthlySummary txs cats y m o = some ms) :
    ms.totalIncome = 0 ∧ ms.totalExpense = 0 ∧ ms.netAmount = 0 ∧
      ms.transactionCount = 0 ∧ ms.incomeTransactions = 0 ∧
      ms.expenseTransactions = 0 ∧ ms.avgDailyIncome = 0 ∧
      ms.avgDailyExpense = 0 ∧ ms.categoryBreakdown = [] ∧
      ms.dailySummaries = [] ∧ ms.biggestIncomeDay = none ∧
      ms.biggestExpenseDay = none ∧ ms.daysWithTransactions = 0 := by
  have hcb := getTransactionsByCategory_empty txs cats (monthOptions y m o) h
  have hds := getDailySummaries_empty txs cats (monthOptions y m o) h
  simp only [getMonthlySummary, hcb, hds, h, List.filter_nil, List.length_nil,
    sortBy, List.foldr, List.head?, Option.map_none', Option.some_inj] at hms
  subst hms
  refine ⟨rfl, rfl, by simp [sumAmounts], rfl, rfl, rfl, ?_, ?_, rfl, rfl, rfl, rfl, rfl⟩
  · simp [sumAmounts]
  · simp [sumAmounts]

/-- Claim C2, amended.  For every aggregation scope in which every
categorized transaction references an existing category, the percentages
returned by `getTransactionsByCategory` sum to exactly 100 whenever the
scope total is positive, and every percentage is 0 when the scope total is
0.  (Without the referential-integrity hypothesis the sum can fall short
of 100: a transaction with a dangling category id is dropped from the
result while still counting toward the percentage denominator — see the
counterexample.) -/
theorem c2_percentage_sum (txs : List Transaction) (cats : List Category)
    (o : AggregationOptions) (r : List CategoryAggregation)
    (hr : getTransactionsByCategory txs cats o = some r)
    (hnd : ∀ t ∈ getFilteredTransactions txs o, ∀ c, t.categoryId = some c → c ≠ "" →
      ∃ cat ∈ cats, cat.id = c) :
    (0 < scopeTotal txs o → (r.map fun a => a.percentage).sum = 100) ∧
      (scopeTotal txs o = 0 → ∀ a ∈ r, a.percentage = 0) := by
  set ts := getFilteredTransactions txs o with hts
  have hkey := groupByCatAux_keyed
    (fun c x => x.categoryId = some c ∧ c ≠ "" ∧ x ∈ ts) ts [] [] (by simp)
    (fun t ht c hc hcne => ⟨hc, hcne, ht⟩)
  have hne := groupByCatAux_ne_nil ts [] [] (by simp)
  have hex : ∀ p ∈ (groupByCatAux ts [] []).1, ∃ cat ∈ cats, cat.id = p.1 := by
    intro p hp
    obtain ⟨x, hx⟩ := List.exists_mem_of_ne_nil p.2 (hne p hp)
    obtain ⟨hcid, hcne, hmem⟩ := hkey p hp x hx
    exact hnd x hmem p.1 hcid hcne
  have hsum := groupByCatAux_sum ts [] []
  rw [show sumGroups ([] : List (String × List Transaction)) = 0 from rfl,
    sumAmounts_nil, zero_add, zero_add] at hsum
  obtain ⟨aggs, haggs⟩ :=
    buildCategoryAggs_isSome cats (sumAmounts ts) ((groupByCatAux ts [] []).1) hne
  have htot : scopeTotal txs o = sumAmounts ts := by rw [scopeTotal, hts]
  match hu : (groupByCatAux ts [] []).2 with
  | [] =>
    have hr' : r = sortBy aggGe aggs := by
      simp only [getTransactionsByCategory, groupByCategory, ← hts, haggs, hu,
        Option.some_inj] at hr
      exact hr.symm
    constructor
    · intro htotal
      have htotal' : 0 < sumAmounts ts := htot ▸ htotal
      have h100 := buildCategoryAggs_percentage_sum cats (sumAmounts ts) _ aggs
        htotal' hne hex haggs
      have hpart : sumGroups (groupByCatAux ts [] []).1 = sumAmounts ts := by
        rw [← hsum, hu, sumAmounts_nil, add_zero]
      rw [hr', sortBy_map_sum, h100, hpart, div_self (ne_of_gt htotal'), one_mul]
    · intro htotal0 a ha
      have hts0 : sumAmounts ts = 0 := by rw [← htot]; exact htotal0
      have hnotpos : ¬ 0 < sumAmounts ts := by rw [hts0]; exact lt_irrefl 0
      have hz := buildCategoryAggs_percentage_zero cats (sumAmounts ts) _ aggs
        hnotpos haggs
      rw [hr', sortBy_mem_iff] at ha
      exact hz a ha
  | u :: us =>
    obtain ⟨ua, hua⟩ := mkCategoryAggregation_isSome "uncategorized" "Uncategorized"
      CatType.both (u :: us) (sumAmounts ts) (by simp)
    have huaspec := mkCategoryAggregation_spec "uncategorized" "Uncategorized"
      CatType.both (u :: us) (sumAmounts ts) ua hua
    have hr' : r = sortBy aggGe (aggs ++ [ua]) := by
      simp only [getTransactionsByCategory, groupByCategory, ← hts, haggs, hu, hua,
        Option.some_inj] at hr
      exact hr.symm
    constructor
    · intro htotal
      have htotal' : 0 < sumAmounts ts := htot ▸ htotal
      have h100 := buildCategoryAggs_percentage_sum cats (sumAmounts ts) _ aggs
        htotal' hne hex haggs
      have hsingle : (([ua]).map fun a => a.percentage).sum = ua.percentage := by simp
      have hpart : sumGroups (groupByCatAux ts [] []).1 + sumAmounts (u :: us)
          = sumAmounts ts := by rw [← hsum, hu]
      rw [hr', sortBy_map_sum, List.map_append, List.sum_append, hsingle, h100,
        huaspec.2.2, if_pos htotal', ← add_mul, div_add_div_same, hpart,
        div_self (ne_of_gt htotal'), one_mul]
    · intro htotal0 a ha
      have hts0 : sumAmounts ts = 0 := by rw [← htot]; exact htotal0
      have hnotpos : ¬ 0 < sumAmounts ts := by rw [hts0]; exact lt_irrefl 0
      have hz := buildCategoryAggs_percentage_zero cats (sumAmounts ts) _ aggs
        hnotpos haggs
      rw [hr', sortBy_mem_iff] at ha
      rcases List.mem_append.mp ha with ha | ha
      · exact hz a ha
      · rw [List.mem_singleton.mp ha, huaspec.2.2, if_neg hnotpos]

/-- Every percentage in a category aggregation result is 0 when the scope
total is 0 (the `totalAmount > 0` guard takes its else-branch). -/
theorem getTransactionsByCategory_zero_total (txs : List Transaction)
    (cats : List Category) (o : AggregationOptions) (r : List CategoryAggregation)
    (h0 : scopeTotal txs o = 0)
    (hr : getTransactionsByCategory txs cats o = some r) :
    ∀ a ∈ r, a.percentage = 0 := by
  set ts := getFilteredTransactions txs o with hts
  have hne := groupByCatAux_ne_nil ts [] [] (by simp)
  obtain ⟨aggs, haggs⟩ :=
    buildCategoryAggs_isSome cats (sumAmounts ts) ((groupByCatAux ts [] []).1) hne
  have hts0 : sumAmounts ts = 0 := by rw [← h0, scopeTotal, hts]
  have hnotpos : ¬ 0 < sumAmounts ts := by rw [hts0]; exact lt_irrefl 0
  have hz := buildCategoryAggs_percentage_zero cats (sumAmounts ts) _ aggs
    hnotpos haggs
  match hu : (groupByCatAux ts [] []).2 with
  | [] =>
    have hr' : r = sortBy aggGe aggs := by
      simp only [getTransactionsByCategory, groupByCategory, ← hts, haggs, hu,
        Option.some_inj] at hr
      exact hr.symm
    intro a ha
    rw [hr', sortBy_mem_iff] at ha
    exact hz a ha
  | u :: us =>
    obtain ⟨ua, hua⟩ := mkCategoryAggregation_isSome "uncategorized" "Uncategorized"
      CatType.both (u :: us) (sumAmounts ts) (by simp)
    have huaspec := mkCategoryAggregation_spec "uncategorized" "Uncategorized"
      CatType.both (u :: us) (sumAmounts ts) ua hua
    have hr' : r = sortBy aggGe (aggs ++ [ua]) := by
      simp only [getTransactionsByCategory, groupByCategory, ← hts, haggs, hu, hua,
        Option.some_inj] at hr
      exact hr.symm
    intro a ha
    rw [hr', sortBy_mem_iff] at ha
    rcases List.mem_append.mp ha with ha | ha
    · exact hz a ha
    · rw [List.mem_singleton.mp ha, huaspec.2.2, if_neg hnotpos]

/-- Claim C4, amended.  Only transactions whose `categoryId` is absent (or
empty) reach the `'Uncategorized'` bucket; every returned bucket is either
`'Uncategorized'` or an existing category.  A transaction whose
`categoryId` references no existing category is therefore represented by
no bucket at all (see the counterexample): it is silently dropped, not
degraded to the uncategorized placeholder. -/
theorem c4_buckets (txs : List Transaction) (cats : List Category)
    (o : AggregationOptions) (r : List CategoryAggregation)
    (hr : getTransactionsByCategory txs cats o = some r) :
    (∀ a ∈ r, a.categoryId = "uncategorized" ∨ ∃ c ∈ cats, c.id = a.categoryId) ∧
      ((∃ t ∈ getFilteredTransactions txs o, catTruthy t.categoryId = false) →
        ∃ a ∈ r, a.categoryId = "uncategorized") := by
  set ts := getFilteredTransactions txs o with hts
  have hne := groupByCatAux_ne_nil ts [] [] (by simp)
  obtain ⟨aggs, haggs⟩ :=
    buildCategoryAggs_isSome cats (sumAmounts ts) ((groupByCatAux ts [] []).1) hne
  have hmem := buildCategoryAggs_mem cats (sumAmounts ts) _ aggs haggs
  have hun := groupByCatAux_un ts [] []
  rw [List.nil_append] at hun
  match hu : (groupByCatAux ts [] []).2 with
  | [] =>
    have hr' : r = sortBy aggGe aggs := by
      simp only [getTransactionsByCategory, groupByCategory, ← hts, haggs, hu,
        Option.some_inj] at hr
      exact hr.symm
    constructor
    · intro a ha
      rw [hr', sortBy_mem_iff] at ha
      exact Or.inr (hmem a ha)
    · rintro ⟨t, htmem, htf⟩
      have htin : t ∈ (groupByCatAux ts [] []).2 := by
        rw [hun]
        exact List.mem_filter.mpr ⟨htmem, by simp [htf]⟩
      rw [hu] at htin
      exact absurd htin (List.not_mem_nil t)
  | u :: us =>
    obtain ⟨ua, hua⟩ := mkCategoryAggregation_isSome "uncategorized" "Uncategorized"
      CatType.both (u :: us) (sumAmounts ts) (by simp)
    have huaspec := mkCategoryAggregation_spec "uncategorized" "Uncategorized"
      CatType.both (u :: us) (sumAmounts ts) ua hua
    have hr' : r = sortBy aggGe (aggs ++ [ua]) := by
      simp only [getTransactionsByCategory, groupByCategory, ← hts, haggs, hu, hua,
        Option.some_inj] at hr
      exact hr.symm
    constructor
    · intro a ha
      rw [hr', sortBy_mem_iff] at ha
      rcases List.mem_append.mp ha with ha | ha
      · exact Or.inr (hmem a ha)
      · rw [List.mem_singleton.mp ha]
        exact Or.inl huaspec.1
    · intro _
      refine ⟨ua, ?_, huaspec.1⟩
      rw [hr', sortBy_mem_iff]
      exact List.mem_append.mpr (Or.inr (List.mem_singleton.mpr rfl))

/-- Claim C7.  Every aggregation call is total (all divisions are guarded
or have nonzero divisors — `none`, the model of a non-finite number, never
occurs); an empty scope yields the empty aggregation list; a zero scope
total yields all-zero percentages; and a month with no transactions in
scope yields the zero-filled monthly summary. -/
theorem c7_division_safety (txs : List Transaction) (cats : List Category)
    (o : AggregationOptions) (y m : Int) :
    (∃ r, getTransactionsByCategory txs cats o = some r) ∧
      (∃ r, getDailySummaries txs cats o = some r) ∧
      (∃ r, getMonthlySummary txs cats y m o = some r) ∧
      (getFilteredTransactions txs o = [] →
        getTransactionsByCategory txs cats o = some []) ∧
      (scopeTotal txs o = 0 → ∀ r, getTransactionsByCategory txs cats o = some r →
        ∀ a ∈ r, a.percentage = 0) ∧
      (getFilteredTransactions txs (monthOptions y m o) = [] →
        ∀ ms, getMonthlySummary txs cats y m o = some ms →
          ms.totalIncome = 0 ∧ ms.totalExpense = 0 ∧ ms.netAmount = 0 ∧
            ms.transactionCount = 0 ∧ ms.avgDailyIncome = 0 ∧
            ms.avgDailyExpense = 0 ∧ ms.categoryBreakdown = [] ∧
            ms.dailySummaries = [] ∧ ms.biggestIncomeDay = none ∧
            ms.biggestExpenseDay = none ∧ ms.daysWithTransactions = 0) := by
  refine ⟨getTransactionsByCategory_isSome txs cats o,
    getDailySummaries_isSome txs cats o,
    getMonthlySummary_isSome txs cats y m o,
    fun h => getTransactionsByCategory_empty txs cats o h,
    fun h0 r hr => getTransactionsByCategory_zero_total txs cats o r h0 hr,
    fun h ms hms => ?_⟩
  obtain ⟨h1, h2, h3, h4, h5, h6, h7, h8, h9, h10, h11, h12, h13⟩ :=
    getMonthlySummary_empty txs cats y m o ms h hms
  exact ⟨h1, h2, h3, h4, h7, h8, h9, h10, h11, h12, h13⟩

/-- The scope total of the dangling-category fixture. -/
theorem scopeTotal_ghost : scopeTotal [txGhostCat] noOptions = 30 := by
  simp [scopeTotal, sumAmounts, getFilteredTransactions, sortBy, insertBy,
    noOptions, txGhostCat, txFood]

/-- Claim C2, counterexample.  One in-scope transaction of amount 30 whose
`categoryId` is dangling: the scope total is 30 > 0, yet the returned
aggregation list is empty, so the percentages sum to 0, not 100. -/
theorem c2_counterexample :
    0 < scopeTotal [txGhostCat] noOptions ∧
      (getTransactionsByCategory [txGhostCat] [foodCategory] noOptions).map
          (fun r => (r.map fun a => a.percentage).sum) = some 0 ∧
      (0 : ℚ) ≠ 100 := by
  refine ⟨?_, ?_, by norm_num⟩
  · rw [scopeTotal_ghost]
    norm_num
  · simp [getTransactionsByCategory, getFilteredTransactions, sortBy, insertBy,
      noOptions, txGhostCat, txFood, foodCategory, groupByCategory, groupByCatAux,
      addToGroups, sumAmounts, buildCategoryAggs, mkCategoryAggregation, jsDiv,
      listMin, listMax, List.find?, aggGe]

/-- Claim C4, counterexample.  The dangling-category transaction is in
scope, yet the result contains no bucket at all — in particular no
`'Uncategorized'` bucket receives it. -/
theorem c4_counterexample :
    getFilteredTransactions [txGhostCat] noOptions = [txGhostCat] ∧
      getTransactionsByCategory [txGhostCat] [foodCategory] noOptions = some [] := by
  constructor
  · simp [getFilteredTransactions, sortBy, insertBy, noOptions]
  · simp [getTransactionsByCategory, getFilteredTransactions, sortBy, insertBy,
      noOptions, txGhostCat, txFood, foodCategory, groupByCategory, groupByCatAux,
      addToGroups, sumAmounts, buildCategoryAggs, mkCategoryAggregation, jsDiv,
      listMin, listMax, List.find?, aggGe]

/-- Claim C5, counterexample.  The caller asks for March 2024 restricted
to `dateFrom = 2024-03-05`; the only transaction is dated 2024-03-01,
strictly before that bound, yet the summary counts it (transactionCount 1,
totalIncome 10).  The month bounds overwrite — rather than intersect —
the caller's range. -/
theorem c5_counterexample :
    dateLe mar5 txIncomeA.date = false ∧
      (getMonthlySummary [txIncomeA] [] 2024 3
          { bookIds := none, dateFrom := some mar5, dateTo := none }).map
          (fun ms => (ms.transactionCount, ms.totalIncome)) = some (1, 10) := by
  constructor
  · simp [dateLe, mar5, txIncomeA, txFood, mar1, mar1at10]
  · simp [getMonthlySummary, monthOptions, startOfMonth, endOfMonth, daysInMonth,
      isLeapYear, getFilteredTransactions, sortBy, insertBy, dateLe, mar5, mar1,
      mar1at10, txIncomeA, txFood, getTransactionsByCategory, groupByCategory,
      groupByCatAux, addToGroups, sumAmounts, buildCategoryAggs,
      mkCategoryAggregation, jsDiv, listMin, listMax, aggGe, getDailySummaries,
      groupByDay, groupByDayAux, mkDailySummary, mapOpt, dayStart, formatDay,
      dailyDateGe, dayKeyLe, incomeGe, expenseGe]

/-- Claim C5, amended.  `getMonthlySummary` replaces any caller-supplied
`dateFrom`/`dateTo` with the first/last day of the month: the result is
identical to calling it with the date range stripped from the options
(only `bookIds` is honored). -/
theorem c5_month_scope (txs : List Transaction) (cats : List Category)
    (y m : Int) (o : AggregationOptions) :
    getMonthlySummary txs cats y m o
      = getMonthlySummary txs cats y m
          { bookIds := o.bookIds, dateFrom := none, dateTo := none } := rfl

/-- Claim C6.  The per-day recursive call passes
`dateFrom = dateTo = new Date(dateKey)` — the midnight instant — so a
transaction at 10:00 is counted in the day's totals (transactionCount 1,
totalExpense 30) while the same day's `topCategories` is empty, although
`getTransactionsByCategory` over the actual calendar-day range returns the
Food bucket (whose first three entries the claim requires). -/
theorem c6_daily_topCategories_bug :
    getDailySummaries [txFood] [foodCategory] noOptions = some
        [{ date := { year := 2024, month := 3, day := 1 }, totalIncome := 0,
           totalExpense := 30, netAmount := -30, transactionCount := 1,
           incomeTransactions := 0, expenseTransactions := 1,
           topCategories := [] }] ∧
      getTransactionsByCategory [txFood] [foodCategory]
          { bookIds := none, dateFrom := some mar1, dateTo := some mar1end }
        = some [foodAgg] ∧
      List.take 3 [foodAgg] ≠ ([] : List CategoryAggregation) := by
  refine ⟨?_, ?_, by simp⟩
  · simp [getDailySummaries, groupByDay, groupByDayAux, addToGroups, mkDailySummary,
      mapOpt, dayStart, formatDay, dailyDateGe, dayKeyLe, sortBy, insertBy,
      getFilteredTransactions, dateLe, noOptions, txFood, foodCategory, mar1,
      mar1at10, getTransactionsByCategory, groupByCategory, groupByCatAux,
      sumAmounts, buildCategoryAggs, mkCategoryAggregation, jsDiv, listMin,
      listMax, aggGe]
  · simp [getTransactionsByCategory, getFilteredTransactions, sortBy, insertBy,
      dateLe, txFood, foodCategory, mar1, mar1at10, mar1end, groupByCategory,
      groupByCatAux, addToGroups, sumAmounts, buildCategoryAggs,
      mkCategoryAggregation, jsDiv, listMin, listMax, aggGe, foodAgg]

/-- Claim C1.  After moving the only (income 10) transaction from book A
to book B, the service recomputes only A (stored balance 0, correct);
book B's stored balance remains 0 while the signed sum of B's
transactions is 10 — the invariant fails for the destination book. -/
theorem c1_update_moved_book_stale :
    (dbMoved.books.map fun b => (b.id, b.balance)) = [("A", 0), ("B", 0)] ∧
      (dbMoved.txs.map fun t => (t.id, t.bookId)) = [("t3", "B")] ∧
      BookService.getBalance dbMoved.txs "B" = 10 := by
  refine ⟨?_, ?_, ?_⟩ <;>
    simp [dbMoved, dbMove, TransactionService.update, TransactionService.getById,
      applyUpdate, BookService.updateBalance, BookService.dbUpdateBalance,
      BookService.getBalance, validateId, moveToB, noUpdate, txIncomeA, txFood,
      bookA, bookB]

/-- Claim C3.  Query, mutate, query again: the second cached read returns
the stale empty list from before the mutation, while a recomputation over
the live transaction set returns the Food bucket. -/
theorem c3_stale_cache :
    (AggregationService.getTransactionsByCategoryCached appMutated 0 noOptions).1
        = some [] ∧
      getTransactionsByCategory appMutated.db.txs appMutated.db.cats noOptions
        = some [foodAgg] ∧
      some ([] : List CategoryAggregation) ≠ some [foodAgg] := by
  refine ⟨?_, ?_, by simp⟩
  · simp [AggregationService.getTransactionsByCategoryCached, appMutated, appCached,
      appInit, createTransactionApp, TransactionService.create,
      BookService.updateBalance, BookService.dbUpdateBalance, BookService.getBalance,
      validateId, ntFood, cacheGet, cacheSet, defaultTTL, encodeOptions, encodeOpt,
      encodeDate, noOptions, getTransactionsByCategory, getFilteredTransactions,
      sortBy, insertBy, groupByCategory, groupByCatAux, addToGroups, sumAmounts,
      buildCategoryAggs, mkCategoryAggregation, jsDiv, listMin, listMax, aggGe,
      foodCategory, bookA, mar1at10, mar1]
  · simp [appMutated, appCached, appInit, createTransactionApp,
      TransactionService.create, BookService.updateBalance,
      BookService.dbUpdateBalance, BookService.getBalance, validateId, ntFood,
      cacheGet, cacheSet, defaultTTL, encodeOptions, encodeOpt, encodeDate,
      noOptions, AggregationService.getTransactionsByCategoryCached,
      getTransactionsByCategory, getFilteredTransactions, sortBy, insertBy,
      groupByCategory, groupByCatAux, addToGroups, sumAmounts, buildCategoryAggs,
      mkCategoryAggregation, jsDiv, listMin, listMax, aggGe, foodCategory, bookA,
      mar1at10, mar1, foodAgg]

/-- Claim C8.  Deleting a category referenced by at least one transaction
fails with an error and leaves the database (categories and transactions)
unchanged. -/
theorem c8_category_delete_rejected (s : DBState) (id : String)
    (h : ∃ t ∈ s.txs, t.categoryId = some id) :
    (CategoryService.delete s id).1 = s ∧
      (CategoryService.delete s id).2 = Except.error (ServiceErr.plainError
        "Cannot delete category that is being used by transactions") := by
  obtain ⟨t, ht, hcat⟩ := h
  have hmem : t ∈ s.txs.filter (fun t => t.categoryId = some id) :=
    List.mem_filter.mpr ⟨ht, by simp [hcat]⟩
  have hpos : (s.txs.filter fun t => t.categoryId = some id).length > 0 :=
    List.length_pos.mpr (List.ne_nil_of_mem hmem)
  simp only [CategoryService.delete, if_pos hpos]
  exact ⟨trivial, trivial⟩

theorem c8_witness :
    (CategoryService.delete dbCat "food").1 = dbCat ∧
      (CategoryService.delete dbCat "food").2 = Except.error (ServiceErr.plainError
        "Cannot delete category that is being used by transactions") :=
  c8_category_delete_rejected dbCat "food"
    ⟨txFood, List.mem_singleton.mpr rfl, rfl⟩

/-- Claim C9, counterexample.  Recomputing the balance of a book id that
exists nowhere returns success (`Except.ok`) and leaves the state
untouched: no "not found" condition is signalled to the caller. -/
theorem c9_counterexample :
    BookService.updateBalance emptyDB "missing-book" = (emptyDB, Except.ok ()) := by
  simp [BookService.updateBalance, validateId, BookService.dbUpdateBalance,
    BookService.getBalance, emptyDB]

/-- Claim C9, amended.  `updateBalance` on a (nonempty) book id that
matches no stored book is a no-op on the stored state and creates no
state, but it returns success rather than signalling not-found. -/
theorem c9_updateBalance_missing_book (s : DBState) (bookId : String)
    (hid : bookId ≠ "") (hmiss : ∀ b ∈ s.books, b.id ≠ bookId) :
    BookService.updateBalance s bookId = (s, Except.ok ()) := by
  have hval : validateId bookId = true := by simp [validateId, hid]
  have hbooks : BookService.dbUpdateBalance s.books bookId
      (BookService.getBalance s.txs bookId) = s.books := by
    unfold BookService.dbUpdateBalance
    have hcongr : ∀ b ∈ s.books,
        (if b.id = bookId then { b with balance := BookService.getBalance s.txs bookId }
          else b) = b :=
      fun b hb => if_neg (hmiss b hb)
    calc s.books.map (fun b =>
            if b.id = bookId then { b with balance := BookService.getBalance s.txs bookId }
            else b)
        = s.books.map id := List.map_congr_left hcongr
      _ = s.books := List.map_id s.books
  simp only [BookService.updateBalance, hval, if_true, hbooks]

theorem c9_witness :
    BookService.updateBalance dbCat "no-such-book" = (dbCat, Except.ok ()) :=
  c9_updateBalance_missing_book dbCat "no-such-book" (by simp)
    (fun b hb => absurd hb (List.not_mem_nil b))

/-- Claim C10.  `TransactionService.update` and `TransactionService.delete`
with an id matching no stored transaction return success and leave the
whole database state (transactions and book balances included)
unchanged. -/
theorem c10_missing_transaction_noop (s : DBState) (now : JSDate) (id : String)
    (u : TransactionUpdate) (h : TransactionService.getById s.txs id = none) :
    TransactionService.update s now id u = (s, Except.ok ()) ∧
      TransactionService.delete s id = (s, Except.ok ()) := by
  constructor
  · simp only [TransactionService.update, h]
  · simp only [TransactionService.delete, h]

theorem c10_witness :
    TransactionService.update dbCat mar1 "absent-id" noUpdate
        = (dbCat, Except.ok ()) ∧
      TransactionService.delete dbCat "absent-id" = (dbCat, Except.ok ()) :=
  c10_missing_transaction_noop dbCat mar1 "absent-id" noUpdate
    (by simp [TransactionService.getById, dbCat, txFood])

/-- `updateBalance` establishes the balance invariant for the book it is
invoked on: afterwards that book's stored balance is the signed
transaction sum. -/
theorem updateBalance_spec (s : DBState) (bookId : String) (hid : bookId ≠ "") :
    ∀ b ∈ (BookService.updateBalance s bookId).1.books, b.id = bookId →
      b.balance = BookService.getBalance s.txs bookId := by
  have hval : validateId bookId = true := by simp [validateId, hid]
  simp only [BookService.updateBalance, hval, if_true]
  intro b hb hbid
  simp only [BookService.dbUpdateBalance, List.mem_map] at hb
  obtain ⟨b0, hb0, hfb⟩ := hb
  by_cases h : b0.id = bookId
  · rw [← hfb, if_pos h]
  · rw [← hfb, if_neg h] at hbid ⊢
    exact absurd hbid h

/-- `updateBalance` never touches the transactions table. -/
theorem updateBalance_txs (s : DBState) (bookId : String) :
    (BookService.updateBalance s bookId).1.txs = s.txs := by
  by_cases h : validateId bookId = true <;> simp [BookService.updateBalance, h]

/-- After `TransactionService.create`, the destination book's stored
balance equals the signed sum over the final transaction set: the
invariant holds for the (only) book the mutation affects. -/
theorem create_destination_consistent (s : DBState) (newId : String) (now : JSDate)
    (nt : NewTransaction) (hid : nt.bookId ≠ "") :
    ∀ b ∈ (TransactionService.create s newId now nt).1.books, b.id = nt.bookId →
      b.balance = BookService.getBalance (TransactionService.create s newId now nt).1.txs
        nt.bookId := by
  intro b hb hbid
  simp only [TransactionService.create] at hb ⊢
  rw [updateBalance_txs]
  exact updateBalance_spec _ nt.bookId hid b hb hbid

/-- After `TransactionService.update`, the stored balance of the book the
service recomputes — the updated transaction's PREVIOUS book — equals the
signed sum over the final transaction set.  (The destination book of a
`bookId` change is the one left out; see the C1 theorem.) -/
theorem update_recomputed_book_consistent (s : DBState) (now : JSDate) (id : String)
    (u : TransactionUpdate) (t : Transaction)
    (ht : TransactionService.getById s.txs id = some t) (hid : t.bookId ≠ "") :
    ∀ b ∈ (TransactionService.update s now id u).1.books, b.id = t.bookId →
      b.balance = BookService.getBalance (TransactionService.update s now id u).1.txs
        t.bookId := by
  intro b hb hbid
  simp only [TransactionService.update, ht] at hb ⊢
  rw [updateBalance_txs]
  exact updateBalance_spec _ t.bookId hid b hb hbid

/-- After `TransactionService.delete`, the deleted transaction's book is
recomputed consistently with the final transaction set. -/
theorem delete_book_consistent (s : DBState) (id : String) (t : Transaction)
    (ht : TransactionService.getById s.txs id = some t) (hid : t.bookId ≠ "") :
    ∀ b ∈ (TransactionService.delete s id).1.books, b.id = t.bookId →
      b.balance = BookService.getBalance (TransactionService.delete s id).1.txs
        t.bookId := by
  intro b hb hbid
  simp only [TransactionService.delete, ht] at hb ⊢
  rw [updateBalance_txs]
  exact updateBalance_spec _ t.bookId hid b hb hbid

theorem c2_witness :
    getTransactionsByCategory [txFood] [foodCategory] noOptions = some [foodAgg] ∧
      ([foodAgg].map fun a => a.percentage).sum = 100 := by
  have hr : getTransactionsByCategory [txFood] [foodCategory] noOptions
      = some [foodAgg] := by
    simp [getTransactionsByCategory, getFilteredTransactions, sortBy, insertBy,
      noOptions, txFood, foodCategory, groupByCategory, groupByCatAux, addToGroups,
      sumAmounts, buildCategoryAggs, mkCategoryAggregation, jsDiv, listMin,
      listMax, aggGe, foodAgg]
  refine ⟨hr, ?_⟩
  refine (c2_percentage_sum [txFood] [foodCategory] noOptions [foodAgg] hr ?_).1 ?_
  · simp [getFilteredTransactions, sortBy, insertBy, noOptions, txFood, foodCategory]
  · norm_num [scopeTotal, sumAmounts, getFilteredTransactions, sortBy, insertBy,
      noOptions, txFood]

theorem c4_witness :
    (∀ a ∈ [uncatAgg],
        a.categoryId = "uncategorized" ∨ ∃ c ∈ ([] : List Category), c.id = a.categoryId) ∧
      ∃ a ∈ [uncatAgg], a.categoryId = "uncategorized" := by
  have hr : getTransactionsByCategory [txIncomeA] [] noOptions = some [uncatAgg] := by
    simp [getTransactionsByCategory, getFilteredTransactions, sortBy, insertBy,
      noOptions, txIncomeA, txFood, groupByCategory, groupByCatAux, addToGroups,
      sumAmounts, buildCategoryAggs, mkCategoryAggregation, jsDiv, listMin,
      listMax, aggGe, uncatAgg]
  have h := c4_buckets [txIncomeA] [] noOptions [uncatAgg] hr
  refine ⟨h.1, h.2 ⟨txIncomeA, ?_, ?_⟩⟩
  · simp [getFilteredTransactions, sortBy, insertBy, noOptions]
  · simp [catTruthy, txIncomeA, txFood]

theorem c7_witness :
    getTransactionsByCategory ([] : List Transaction) [] noOptions = some [] ∧
      ∀ ms, getMonthlySummary ([] : List Transaction) [] 2024 2 noOptions = some ms →
        ms.totalIncome = 0 ∧ ms.daysWithTransactions = 0 := by
  have h := c7_division_safety ([] : List Transaction) [] noOptions 2024 2
  refine ⟨h.2.2.2.1 rfl, fun ms hms => ?_⟩
  obtain ⟨h1, h2, h3, h4, h5, h6, h7, h8, h9, h10, h11⟩ :=
    h.2.2.2.2.2 rfl ms hms
  exact ⟨h1, h11⟩

end CashLite
